import Mathlib

/-!
# Vizier animation pipeline — verification of the core algorithms

Shallow embedding of the animation-generation pipeline of the Vizier
repository: easing curves, parabolic arc math, the planner's frame
schedule, frame-count determination, the refiner passes, and the
orchestrator state machine with its validator routing.

Sources: the code blocks in `docs/PHASE_1_TELEKINESIS_SUMMARY.md`
(`route_from_validator`, `build_telekinesis_graph`),
`docs/PHASE_2_TELEKINESIS_SUMMARY.md` (easing, frame count),
`docs/PHASE_3_PLAN.md` (`parabolic_arc`, `refiner_agent`,
`temporal_smooth`), `docs/PHASE_3_TELEKINESIS_SUMMARY.md`
(`_calculate_parabolic_arc`), and the easing formulas of the animation
principles knowledge base. Python floats are modelled by exact
rationals (ℚ) where the computation is rational, and by ℝ where a
square root occurs.
-/

namespace Vizier

/-! ## Easing curves

From the knowledge base "Easing Functions (slow in and slow out)":
ease-in is `t ** 2`, ease-out is `1 - (1 - t) ** 2`, ease-in-out is
`2 * t ** 2` for `t < 0.5` and `1 - 2 * (1 - t) ** 2` otherwise;
linear leaves `t` unchanged. -/

inductive EasingCurve where
  | linear
  | easeIn
  | easeOut
  | easeInOut
deriving DecidableEq, Repr

/-- `apply_easing_curve(t_linear, timing_curve)` from the planner:
the four easing formulas of the knowledge base. -/
def apply_easing_curve (t : ℚ) (curve : EasingCurve) : ℚ :=
  match curve with
  | .linear => t
  | .easeIn => t ^ 2
  | .easeOut => 1 - (1 - t) ^ 2
  | .easeInOut => if t < 1/2 then 2 * t ^ 2 else 1 - 2 * (1 - t) ^ 2

/-! ## Validator routing and the orchestrator graph

`route_from_validator` from `PHASE_1_TELEKINESIS_SUMMARY.md`: reads
`overall_quality_score` and `iteration_count`, increments the count
when it chooses replan or refine, and returns the routing decision. -/

inductive RouteDecision where
  | refine
  | replan
  | finished
deriving DecidableEq, Repr

/-- `route_from_validator(state)`: the Python function mutates
`state["iteration_count"]` and returns a routing string; modelled as a
pure function returning the decision together with the new count. -/
def route_from_validator (quality : ℚ) (iteration : ℕ) : RouteDecision × ℕ :=
  if 8 ≤ quality then (.finished, iteration)
  else if quality < 6 ∧ iteration < 2 then (.replan, iteration + 1)
  else if 6 ≤ quality ∧ iteration < 3 then (.refine, iteration + 1)
  else (.finished, iteration)

/-- The graph nodes of `build_telekinesis_graph` plus the END node. -/
inductive Phase where
  | analyzer
  | principles
  | planner
  | generator
  | validator
  | refiner
  | done
deriving DecidableEq, Repr

/-- The orchestrator state as far as control flow is concerned:
current node, `iteration_count`, how many validation reports have been
consumed, and a ghost counter of refine/replan loop iterations. -/
structure MachineState where
  phase : Phase
  iteration_count : ℕ
  validations : ℕ
  loop_count : ℕ
deriving DecidableEq, Repr

/-- Entry point of the graph: `set_entry_point("analyzer")`, with
`iteration_count` initialised to 0. -/
def initState : MachineState := ⟨.analyzer, 0, 0, 0⟩

/-- One transition of `build_telekinesis_graph`. The linear edges
analyzer→principles→planner→generator→validator, the conditional edge
out of the validator given by `route_from_validator` (consuming the
next score of the run `score`), the fixed edge refiner→validator with
the refiner's own `iteration_count` increment
(`state["iteration_count"] = state.get("iteration_count", 0) + 1`),
and END absorbing. `loop_count` counts the refine/replan transitions. -/
def step (score : ℕ → ℚ) (s : MachineState) : MachineState :=
  match s.phase with
  | .analyzer => { s with phase := .principles }
  | .principles => { s with phase := .planner }
  | .planner => { s with phase := .generator }
  | .generator => { s with phase := .validator }
  | .validator =>
    let q := score s.validations
    let r := route_from_validator q s.iteration_count
    match r.1 with
    | .finished =>
        { s with phase := .done, iteration_count := r.2,
                 validations := s.validations + 1 }
    | .replan =>
        { s with phase := .planner, iteration_count := r.2,
                 validations := s.validations + 1,
                 loop_count := s.loop_count + 1 }
    | .refine =>
        { s with phase := .refiner, iteration_count := r.2,
                 validations := s.validations + 1,
                 loop_count := s.loop_count + 1 }
  | .refiner =>
      { s with phase := .validator, iteration_count := s.iteration_count + 1 }
  | .done => s

/-! ## Arc math

From `_calculate_parabolic_arc` in `PHASE_3_TELEKINESIS_SUMMARY.md`:
x linearly interpolated, y linearly interpolated plus the parabolic
offset `-arc_height * 4 * t * (1 - t)` with
`arc_height = distance * intensity * 0.3`. -/

inductive ArcType where
  | none  -- straight-line interpolation
  | parabolic
deriving DecidableEq, Repr

/-- Embedding of `_calculate_parabolic_arc(start_pos, end_pos, t, intensity)`.
The source excerpt leaves the variable `distance` undefined.
Modelled from the spec: `distance` is the Euclidean distance between
start and end in the same normalized coordinate space. -/
noncomputable def _calculate_parabolic_arc (start_pos end_pos : ℝ × ℝ)
    (t intensity : ℝ) : ℝ × ℝ :=
  let x := (1 - t) * start_pos.1 + t * end_pos.1
  let y_linear := (1 - t) * start_pos.2 + t * end_pos.2
  let distance := Real.sqrt ((end_pos.1 - start_pos.1) ^ 2 + (end_pos.2 - start_pos.2) ^ 2)
  let arc_height := distance * intensity * 0.3
  let arc_offset := -arc_height * 4 * t * (1 - t)
  (x, y_linear + arc_offset)

/-- Embedding of the arc dispatcher `_calculate_arc_path`.
Modelled from the spec: its body is not under `src/` (the phase
summary only lists its name); for arc type `none` both axes are
linearly interpolated, for `parabolic` it delegates to
`_calculate_parabolic_arc`. -/
noncomputable def _calculate_arc_path (start_pos end_pos : ℝ × ℝ)
    (t intensity : ℝ) : ArcType → ℝ × ℝ
  | .none =>
      ((1 - t) * start_pos.1 + t * end_pos.1,
       (1 - t) * start_pos.2 + t * end_pos.2)
  | .parabolic => _calculate_parabolic_arc start_pos end_pos t intensity

/-! ## Planner: frame schedule and frame count -/

/-- The planner's schedule: for `i` in `0..num_frames-1`,
`t_linear = i / (num_frames - 1)` and
`t_eased = apply_easing_curve(t_linear, timing_curve)`; each entry is
`(frame_index, t_linear, t_eased)`. -/
def frame_schedule (num_frames : ℕ) (timing_curve : EasingCurve) :
    List (ℕ × ℚ × ℚ) :=
  (List.range num_frames).map (fun i =>
    (i, (i : ℚ) / ((num_frames : ℚ) - 1),
     apply_easing_curve ((i : ℚ) / ((num_frames : ℚ) - 1)) timing_curve))

/-- The discretized motion energy of a `MotionAnalysis`. -/
inductive MotionEnergy where
  | verySlow
  | slow
  | medium
  | fast
  | veryFast
  | explosive
deriving DecidableEq, Repr

/-- Embedding of `_determine_frame_count`: an explicit count in the
instruction is honored, otherwise the count comes from the motion
energy by the fixed lookup of `PHASE_2_TELEKINESIS_SUMMARY.md`
(very-slow→16, slow→12, medium→8, fast→6, very-fast/explosive→4).
Modelled from the spec: the clamp of an explicit count to the range
[2, 32] is stated only in the spec; the function's body is not under
`src/`. -/
def _determine_frame_count : Option ℕ → MotionEnergy → ℕ
  | some k, _ => max 2 (min 32 k)
  | none, e =>
    match e with
    | .verySlow => 16
    | .slow => 12
    | .medium => 8
    | .fast => 6
    | .veryFast => 4
    | .explosive => 4

/-! ## Validation reports -/

/-- The slice of a `ValidationReport` that drives control flow. -/
structure ValidationReport where
  overall_quality_score : ℚ
  needs_refinement : Bool
deriving DecidableEq, Repr

/-- Embedding of the validator agent's failure fallback.
Modelled from the spec: the fallback branch is not under `src/` (the
phase summaries only show the success path and the stub that
"always returns quality score 8.0"); per the spec, when the Validator
collaborator is unreachable or returns a malformed response the core
substitutes a neutral report with `overall_score = 8.0`. A failed
collaborator call is modelled as `none`. -/
def neutral_report : ValidationReport :=
  { overall_quality_score := 8, needs_refinement := false }

/-- The report the orchestrator actually uses: the collaborator's when
the call succeeded, the neutral fallback otherwise. -/
def validator_with_fallback (result : Option ValidationReport) : ValidationReport :=
  match result with
  | some r => r
  | none => neutral_report

/-! ## Refiner

`refiner_agent` and `temporal_smooth` from `PHASE_3_PLAN.md`. A frame
buffer is modelled as a map from pixel index to channel value. -/

/-- An RGBA frame buffer, modelled as a total map from (flattened)
pixel index to channel value. -/
def Frame : Type := ℕ → ℚ

/-- The accumulation loop of `temporal_smooth`: `result` starts as
zeros and accumulates `weight * frame` pixelwise over the pairs. -/
def frame_weighted_sum (pairs : List (ℚ × Frame)) : Frame :=
  fun p => (pairs.map (fun wf => wf.1 * wf.2 p)).sum

/-- Embedding of `temporal_smooth(frames, kernel_size)`: frame `i` is
replaced by the normalized weighted average of the frames at indices
`j` in `max(0, i - kernel_size//2) .. min(n, i + kernel_size//2 + 1)`
(exclusive upper bound) with raw weight
`1 - |j - i| / (kernel_size//2 + 1)`. -/
def temporal_smooth (frames : List Frame) (kernel_size : ℕ) : List Frame :=
  let n := frames.length
  (List.range n).map (fun i =>
    let lo := i - kernel_size / 2
    let hi := min n (i + kernel_size / 2 + 1)
    let js := List.range' lo (hi - lo)
    let weights := js.map (fun j =>
      1 - ((((j : ℤ) - (i : ℤ)).natAbs : ℚ) / ((kernel_size / 2 + 1 : ℕ) : ℚ)))
    let total := weights.sum
    let normalized := weights.map (fun w => w / total)
    frame_weighted_sum (normalized.zip (js.map (fun j => frames.getD j (fun _ => 0)))))

/-- Embedding of `normalize_colors(frame_arrays, frames[0], frames[-1])`.
Modelled from the spec: its body is not under `src/` (the refiner only
calls it); per the spec it nudges each frame's dominant color toward
the linearly interpolated keyframe color — a per-frame pixel
transformation, modelled as an arbitrary per-frame map `nudge` of the
frame index and the frame. -/
def normalize_colors (nudge : ℕ → Frame → Frame) (frames : List Frame) : List Frame :=
  ((List.range frames.length).zip frames).map (fun jf => nudge jf.1 jf.2)

/-- The slice of the orchestrator's `AnimationState` read and written
by `refiner_agent`: the frame sequence, the validation sub-scores that
gate the passes, the planner's schedule (which the refiner never
touches), the refined output, and `iteration_count`. -/
structure RefinerState where
  frames : List Frame
  plan_schedule : List (ℕ × ℚ × ℚ)
  motion_smoothness : ℚ
  artifact_score : ℚ
  style_consistency : ℚ
  refined_frames : List Frame
  iteration_count : ℕ

/-- Embedding of `refiner_agent(state)`: temporal smoothing with
kernel size 3 when `motion_smoothness < 7`, per-frame alpha cleanup
(`[cleanup_alpha_edges(f) for f in frame_arrays]`, body of
`cleanup_alpha_edges` abstracted as it is not under `src/`) when
`artifact_score < 7`, color normalization when
`style_consistency < 7`; the result is stored in `refined_frames` and
`iteration_count` is incremented. -/
def refiner_agent (cleanup_alpha_edges : Frame → Frame)
    (nudge : ℕ → Frame → Frame) (s : RefinerState) : RefinerState :=
  let frame_arrays := s.frames
  let frame_arrays :=
    if s.motion_smoothness < 7 then temporal_smooth frame_arrays 3 else frame_arrays
  let frame_arrays :=
    if s.artifact_score < 7 then frame_arrays.map cleanup_alpha_edges else frame_arrays
  let frame_arrays :=
    if s.style_consistency < 7 then normalize_colors nudge frame_arrays else frame_arrays
  { s with refined_frames := frame_arrays,
           iteration_count := s.iteration_count + 1 }

/-- The control-flow invariant of the orchestrator: the number of
refine/replan loop iterations taken so far never exceeds
`iteration_count`, and never exceeds 3. -/
def MachineInv (s : MachineState) : Prop :=
  s.loop_count ≤ s.iteration_count ∧ s.loop_count ≤ 3

/-! ### Helper lemmas on easing, schedules and the refiner -/

lemma apply_easing_curve_zero (curve : EasingCurve) : apply_easing_curve 0 curve = 0 := by
  cases curve <;> norm_num [apply_easing_curve]

lemma apply_easing_curve_one (curve : EasingCurve) : apply_easing_curve 1 curve = 1 := by
  cases curve <;> norm_num [apply_easing_curve]

lemma frame_schedule_getD (n : ℕ) (curve : EasingCurve) (i : ℕ) (hi : i < n) :
    (frame_schedule n curve).getD i (0, 0, 0) =
      (i, (i : ℚ) / ((n : ℚ) - 1),
       apply_easing_curve ((i : ℚ) / ((n : ℚ) - 1)) curve) := by
  unfold frame_schedule
  rw [List.getD_eq_getElem?_getD, List.getElem?_map, List.getElem?_range hi]
  rfl

lemma temporal_smooth_length (frames : List Frame) (kernel_size : ℕ) :
    (temporal_smooth frames kernel_size).length = frames.length := by
  unfold temporal_smooth
  simp

lemma normalize_colors_length (nudge : ℕ → Frame → Frame) (frames : List Frame) :
    (normalize_colors nudge frames).length = frames.length := by
  unfold normalize_colors
  simp

/-! ### Helper lemmas on routing and the machine -/

lemma step_analyzer (f : ℕ → ℚ) (s : MachineState) (hp : s.phase = .analyzer) :
    step f s = { s with phase := .principles } := by
  unfold step
  rw [hp]

lemma step_principles (f : ℕ → ℚ) (s : MachineState) (hp : s.phase = .principles) :
    step f s = { s with phase := .planner } := by
  unfold step
  rw [hp]

lemma route_finished_of_ge8 (q : ℚ) (i : ℕ) (h : 8 ≤ q) :
    route_from_validator q i = (.finished, i) := by
  unfold route_from_validator
  rw [if_pos h]

lemma route_replan (q : ℚ) (i : ℕ) (h8 : q < 8) (h6 : q < 6) (hi : i < 2) :
    route_from_validator q i = (.replan, i + 1) := by
  unfold route_from_validator
  rw [if_neg (by linarith), if_pos ⟨h6, hi⟩]

lemma route_refine (q : ℚ) (i : ℕ) (h8 : q < 8) (h6 : 6 ≤ q) (hi : i < 3) :
    route_from_validator q i = (.refine, i + 1) := by
  unfold route_from_validator
  rw [if_neg (by linarith), if_neg (by rintro ⟨a, b⟩; linarith), if_pos ⟨h6, hi⟩]

lemma route_finished_low (q : ℚ) (i : ℕ) (h6 : q < 6) (hi : 2 ≤ i) :
    route_from_validator q i = (.finished, i) := by
  unfold route_from_validator
  rw [if_neg (by intro h; linarith), if_neg (by rintro ⟨a, b⟩; omega),
    if_neg (by rintro ⟨a, b⟩; linarith)]

lemma route_finished_mid (q : ℚ) (i : ℕ) (h8 : q < 8) (h6 : 6 ≤ q) (hi : 3 ≤ i) :
    route_from_validator q i = (.finished, i) := by
  unfold route_from_validator
  rw [if_neg (by intro h; linarith), if_neg (by rintro ⟨a, b⟩; linarith),
    if_neg (by rintro ⟨a, b⟩; omega)]

lemma step_validator_finished (f : ℕ → ℚ) (s : MachineState)
    (hp : s.phase = .validator)
    (hr : route_from_validator (f s.validations) s.iteration_count =
      (.finished, s.iteration_count)) :
    step f s = { s with phase := .done, validations := s.validations + 1 } := by
  unfold step
  rw [hp]
  simp only [hr]

lemma step_validator_replan (f : ℕ → ℚ) (s : MachineState)
    (hp : s.phase = .validator)
    (hr : route_from_validator (f s.validations) s.iteration_count =
      (.replan, s.iteration_count + 1)) :
    step f s = { s with phase := .planner,
                        iteration_count := s.iteration_count + 1,
                        validations := s.validations + 1,
                        loop_count := s.loop_count + 1 } := by
  unfold step
  rw [hp]
  simp only [hr]

lemma step_validator_refine (f : ℕ → ℚ) (s : MachineState)
    (hp : s.phase = .validator)
    (hr : route_from_validator (f s.validations) s.iteration_count =
      (.refine, s.iteration_count + 1)) :
    step f s = { s with phase := .refiner,
                        iteration_count := s.iteration_count + 1,
                        validations := s.validations + 1,
                        loop_count := s.loop_count + 1 } := by
  unfold step
  rw [hp]
  simp only [hr]

lemma step_refiner (f : ℕ → ℚ) (s : MachineState) (hp : s.phase = .refiner) :
    step f s = { s with phase := .validator,
                        iteration_count := s.iteration_count + 1 } := by
  unfold step
  rw [hp]

lemma step_done_eq (f : ℕ → ℚ) (s : MachineState) (hp : s.phase = .done) :
    step f s = s := by
  unfold step
  rw [hp]

lemma iterate_done (f : ℕ → ℚ) (n : ℕ) (s : MachineState) (hp : s.phase = .done) :
    ((step f)^[n] s).phase = .done := by
  induction n with
  | zero => simpa using hp
  | succ k ih =>
      rw [Function.iterate_succ_apply, step_done_eq f s hp]
      exact ih

/-- Out of iterations: any validation at `iteration_count ≥ 3` routes to END. -/
lemma validator_done_of_3 (f : ℕ → ℚ) (s : MachineState)
    (hp : s.phase = .validator) (hi : 3 ≤ s.iteration_count) :
    (step f s).phase = .done := by
  set q := f s.validations with hq
  rcases le_or_lt 8 q with h8 | h8
  · rw [step_validator_finished f s hp (route_finished_of_ge8 q _ h8)]
  · rcases le_or_lt 6 q with h6 | h6
    · rw [step_validator_finished f s hp (route_finished_mid q _ h8 h6 hi)]
    · rw [step_validator_finished f s hp (route_finished_low q _ h6 (by omega))]

/-- From a validation at `iteration_count ≥ 2` the machine is in END
within 3 steps: either the route is END at once, or one refine pass
raises the count past the cap. -/
lemma validator_done_of_2 (f : ℕ → ℚ) (s : MachineState)
    (hp : s.phase = .validator) (hi : 2 ≤ s.iteration_count) :
    ((step f)^[3] s).phase = .done := by
  set q := f s.validations with hq
  have habs : ∀ t : MachineState, t.phase = .done → ((step f)^[2] t).phase = .done :=
    fun t ht => iterate_done f 2 t ht
  rcases le_or_lt 8 q with h8 | h8
  · rw [show (3 : ℕ) = 2 + 1 from rfl, Function.iterate_add_apply]
    exact habs _ (by rw [Function.iterate_one,
      step_validator_finished f s hp (route_finished_of_ge8 q _ h8)])
  · rcases le_or_lt 6 q with h6 | h6
    · rcases le_or_lt 3 s.iteration_count with hi3 | hi3
      · rw [show (3 : ℕ) = 2 + 1 from rfl, Function.iterate_add_apply]
        exact habs _ (by rw [Function.iterate_one,
          step_validator_finished f s hp (route_finished_mid q _ h8 h6 hi3)])
      · -- refine: validator → refiner → validator (count ≥ 4) → END
        rw [show (3 : ℕ) = 1 + 1 + 1 from rfl, Function.iterate_add_apply,
          Function.iterate_add_apply, Function.iterate_one,
          step_validator_refine f s hp (route_refine q _ h8 h6 hi3),
          step_refiner f
            { s with phase := .refiner,
                     iteration_count := s.iteration_count + 1,
                     validations := s.validations + 1,
                     loop_count := s.loop_count + 1 } rfl]
        exact validator_done_of_3 f _ rfl (by simp; omega)
    · rw [show (3 : ℕ) = 2 + 1 from rfl, Function.iterate_add_apply]
      exact habs _ (by rw [Function.iterate_one,
        step_validator_finished f s hp (route_finished_low q _ h6 hi)])

lemma step_planner (f : ℕ → ℚ) (s : MachineState) (hp : s.phase = .planner) :
    step f s = { s with phase := .generator } := by
  unfold step
  rw [hp]

lemma step_generator (f : ℕ → ℚ) (s : MachineState) (hp : s.phase = .generator) :
    step f s = { s with phase := .validator } := by
  unfold step
  rw [hp]

/-- A mid-quality validation with `1 ≤ iteration_count < 3`: refine,
re-validate, and the re-validation routes to END within 3 steps. -/
lemma validator_done_refine (f : ℕ → ℚ) (s : MachineState)
    (hp : s.phase = .validator) (h8 : f s.validations < 8)
    (h6 : 6 ≤ f s.validations) (hi3 : s.iteration_count < 3)
    (hi1 : 1 ≤ s.iteration_count) :
    ((step f)^[3] s).phase = .done := by
  rw [show (3 : ℕ) = 1 + 1 + 1 from rfl, Function.iterate_add_apply,
    Function.iterate_add_apply, Function.iterate_one,
    step_validator_refine f s hp (route_refine _ _ h8 h6 hi3),
    step_refiner f
      { s with phase := .refiner,
               iteration_count := s.iteration_count + 1,
               validations := s.validations + 1,
               loop_count := s.loop_count + 1 } rfl]
  exact validator_done_of_3 f _ rfl (by simp; omega)

/-- From a validation at `iteration_count ≥ 1` the machine is in END
within 6 steps. -/
lemma validator_done_of_1 (f : ℕ → ℚ) (s : MachineState)
    (hp : s.phase = .validator) (hi : 1 ≤ s.iteration_count) :
    ((step f)^[6] s).phase = .done := by
  set q := f s.validations with hq
  rcases le_or_lt 8 q with h8 | h8
  · rw [show (6 : ℕ) = 5 + 1 from rfl, Function.iterate_add_apply,
      Function.iterate_one, step_validator_finished f s hp (route_finished_of_ge8 q _ h8)]
    exact iterate_done f 5 _ rfl
  · rcases le_or_lt 6 q with h6 | h6
    · rcases le_or_lt 3 s.iteration_count with hi3 | hi3
      · rw [show (6 : ℕ) = 5 + 1 from rfl, Function.iterate_add_apply,
          Function.iterate_one,
          step_validator_finished f s hp (route_finished_mid q _ h8 h6 hi3)]
        exact iterate_done f 5 _ rfl
      · rw [show (6 : ℕ) = 3 + 3 from rfl, Function.iterate_add_apply]
        exact iterate_done f 3 _ (validator_done_refine f s hp h8 h6 hi3 hi)
    · rcases le_or_lt 2 s.iteration_count with hi2 | hi2
      · rw [show (6 : ℕ) = 5 + 1 from rfl, Function.iterate_add_apply,
          Function.iterate_one,
          step_validator_finished f s hp (route_finished_low q _ h6 hi2)]
        exact iterate_done f 5 _ rfl
      · -- replan: validator → planner → generator → validator (count = 2)
        rw [show (6 : ℕ) = 3 + 1 + 1 + 1 from rfl, Function.iterate_add_apply,
          Function.iterate_add_apply, Function.iterate_add_apply,
          Function.iterate_one,
          step_validator_replan f s hp (route_replan q _ h8 h6 hi2),
          step_planner f
            { s with phase := .planner,
                     iteration_count := s.iteration_count + 1,
                     validations := s.validations + 1,
                     loop_count := s.loop_count + 1 } rfl,
          step_generator f _ rfl]
        exact validator_done_of_2 f _ rfl (by simp; omega)

/-- From any validation the machine is in END within 9 steps. -/
lemma validator_done_any (f : ℕ → ℚ) (s : MachineState)
    (hp : s.phase = .validator) :
    ((step f)^[9] s).phase = .done := by
  set q := f s.validations with hq
  rcases le_or_lt 8 q with h8 | h8
  · rw [show (9 : ℕ) = 8 + 1 from rfl, Function.iterate_add_apply,
      Function.iterate_one, step_validator_finished f s hp (route_finished_of_ge8 q _ h8)]
    exact iterate_done f 8 _ rfl
  · rcases le_or_lt 6 q with h6 | h6
    · rcases le_or_lt 3 s.iteration_count with hi3 | hi3
      · rw [show (9 : ℕ) = 8 + 1 from rfl, Function.iterate_add_apply,
          Function.iterate_one,
          step_validator_finished f s hp (route_finished_mid q _ h8 h6 hi3)]
        exact iterate_done f 8 _ rfl
      · rcases le_or_lt 1 s.iteration_count with hi1 | hi1
        · rw [show (9 : ℕ) = 6 + 3 from rfl, Function.iterate_add_apply]
          exact iterate_done f 6 _ (validator_done_refine f s hp h8 h6 hi3 hi1)
        · -- iteration_count = 0: refine, then re-validate at count 2
          rw [show (9 : ℕ) = 4 + 3 + 1 + 1 from rfl, Function.iterate_add_apply,
            Function.iterate_add_apply, Function.iterate_add_apply,
            Function.iterate_one,
            step_validator_refine f s hp (route_refine q _ h8 h6 hi3),
            step_refiner f
              { s with phase := .refiner,
                       iteration_count := s.iteration_count + 1,
                       validations := s.validations + 1,
                       loop_count := s.loop_count + 1 } rfl]
          exact iterate_done f 4 _
            (validator_done_of_2 f _ rfl (by simp))
    · rcases le_or_lt 2 s.iteration_count with hi2 | hi2
      · rw [show (9 : ℕ) = 8 + 1 from rfl, Function.iterate_add_apply,
          Function.iterate_one,
          step_validator_finished f s hp (route_finished_low q _ h6 hi2)]
        exact iterate_done f 8 _ rfl
      · -- replan: three steps back to the validator at count + 1 ≥ 1
        rw [show (9 : ℕ) = 6 + 1 + 1 + 1 from rfl, Function.iterate_add_apply,
          Function.iterate_add_apply, Function.iterate_add_apply,
          Function.iterate_one,
          step_validator_replan f s hp (route_replan q _ h8 h6 hi2),
          step_planner f
            { s with phase := .planner,
                     iteration_count := s.iteration_count + 1,
                     validations := s.validations + 1,
                     loop_count := s.loop_count + 1 } rfl,
          step_generator f _ rfl]
        exact validator_done_of_1 f _ rfl (by simp)

/-- The linear prefix of the graph: four steps from entry reach the
first validation with `iteration_count = 0`. -/
lemma iterate_four_init (f : ℕ → ℚ) :
    (step f)^[4] initState = ⟨.validator, 0, 0, 0⟩ := rfl

/-- One transition preserves the control-flow invariant. -/
lemma inv_step (f : ℕ → ℚ) (s : MachineState) (h : MachineInv s) :
    MachineInv (step f s) := by
  obtain ⟨h1, h2⟩ := h
  cases hp : s.phase
  · rw [step_analyzer f s hp]; exact ⟨h1, h2⟩
  · rw [step_principles f s hp]; exact ⟨h1, h2⟩
  · rw [step_planner f s hp]; exact ⟨h1, h2⟩
  · rw [step_generator f s hp]; exact ⟨h1, h2⟩
  · rcases le_or_lt 8 (f s.validations) with h8 | h8
    · rw [step_validator_finished f s hp (route_finished_of_ge8 _ _ h8)]
      exact ⟨h1, h2⟩
    · rcases le_or_lt 6 (f s.validations) with h6 | h6
      · rcases le_or_lt 3 s.iteration_count with hi3 | hi3
        · rw [step_validator_finished f s hp (route_finished_mid _ _ h8 h6 hi3)]
          exact ⟨h1, h2⟩
        · rw [step_validator_refine f s hp (route_refine _ _ h8 h6 hi3)]
          exact ⟨by simp; omega, by simp; omega⟩
      · rcases le_or_lt 2 s.iteration_count with hi2 | hi2
        · rw [step_validator_finished f s hp (route_finished_low _ _ h6 hi2)]
          exact ⟨h1, h2⟩
        · rw [step_validator_replan f s hp (route_replan _ _ h8 h6 hi2)]
          exact ⟨by simp; omega, by simp; omega⟩
  · rw [step_refiner f s hp]
    exact ⟨by simp; omega, by simp; omega⟩
  · rw [step_done_eq f s hp]
    exact ⟨h1, h2⟩

/-- The control-flow invariant holds along every run. -/
lemma inv_iterate (f : ℕ → ℚ) (n : ℕ) : MachineInv ((step f)^[n] initState) := by
  induction n with
  | zero => exact ⟨Nat.le_refl 0, by simp [initState]⟩
  | succ k ih =>
      rw [Function.iterate_succ_apply']
      exact inv_step f _ ih

/-- C3: for every sequence of validation reports (any scores the
Validator may return, including a constant 5.0), the orchestrator run
started in Analyze reaches the terminal Done state — it is in END
after 13 transitions, which covers the worst case of two replans
followed by one refine — and along the whole run the number of
refine/replan loop iterations never exceeds 3, so a fourth loop
iteration is impossible. -/
theorem orchestrator_terminates_within_three_loops (f : ℕ → ℚ) :
    ((step f)^[13] initState).phase = .done ∧
    (∀ n : ℕ, ((step f)^[n] initState).loop_count ≤ 3) := by
  constructor
  · rw [show (13 : ℕ) = 9 + 4 from rfl, Function.iterate_add_apply, iterate_four_init]
    exact validator_done_any f _ rfl
  · intro n
    exact (inv_iterate f n).2

/-- C2: routing out of Validate follows the transition table — score
at least 8.0 goes to Done; otherwise a score below 6.0 with fewer than
2 iterations goes to Plan and increments the iteration count;
otherwise a score of at least 6.0 with fewer than 3 iterations goes to
Refine and increments the iteration count; otherwise Done with the
count unchanged — and the Refine state always transitions back to
Validate. -/
theorem validate_routing_table :
    (∀ (q : ℚ) (i : ℕ), 8 ≤ q →
      route_from_validator q i = (.finished, i)) ∧
    (∀ (q : ℚ) (i : ℕ), q < 8 → q < 6 → i < 2 →
      route_from_validator q i = (.replan, i + 1)) ∧
    (∀ (q : ℚ) (i : ℕ), q < 8 → 6 ≤ q → i < 3 →
      route_from_validator q i = (.refine, i + 1)) ∧
    (∀ (q : ℚ) (i : ℕ), q < 8 → ¬(q < 6 ∧ i < 2) → ¬(6 ≤ q ∧ i < 3) →
      route_from_validator q i = (.finished, i)) ∧
    (∀ (f : ℕ → ℚ) (s : MachineState), s.phase = .refiner →
      (step f s).phase = .validator) := by
  refine ⟨route_finished_of_ge8, route_replan, route_refine, ?_, ?_⟩
  · intro q i h8 hlow hmid
    rcases le_or_lt 6 q with h6 | h6
    · have hi3 : 3 ≤ i := by by_contra hc; exact hmid ⟨h6, by omega⟩
      exact route_finished_mid q i h8 h6 hi3
    · have hi2 : 2 ≤ i := by by_contra hc; exact hlow ⟨h6, by omega⟩
      exact route_finished_low q i h6 hi2
  · intro f s hp
    rw [step_refiner f s hp]

/-- Witness for C2 at concrete scores and iteration counts: 9.0 ends,
5.0 at iteration 0 replans, 7.0 at iteration 0 refines, 5.0 at
iteration 2 ends, and a refiner state steps to the validator. -/
theorem validate_routing_table_witness :
    route_from_validator 9 0 = (.finished, 0) ∧
    route_from_validator 5 0 = (.replan, 1) ∧
    route_from_validator 7 0 = (.refine, 1) ∧
    route_from_validator 5 2 = (.finished, 2) ∧
    (step (fun _ => 5) ⟨.refiner, 1, 1, 1⟩).phase = .validator :=
  ⟨validate_routing_table.1 9 0 (by norm_num),
   validate_routing_table.2.1 5 0 (by norm_num) (by norm_num) (by norm_num),
   validate_routing_table.2.2.1 7 0 (by norm_num) (by norm_num) (by norm_num),
   validate_routing_table.2.2.2.1 5 2 (by norm_num) (by norm_num) (by norm_num),
   validate_routing_table.2.2.2.2 (fun _ => 5) ⟨.refiner, 1, 1, 1⟩ rfl⟩

/-- C10: during any single orchestrator run `iteration_count` starts
at 0 and is monotonically non-decreasing; it is incremented (by
exactly one) by the validator routing whenever the route chosen is
replan or refine, and incremented again by the refiner pass itself; no
transition ever decreases or resets it. -/
theorem iteration_count_monotone :
    initState.iteration_count = 0 ∧
    (∀ (f : ℕ → ℚ) (s : MachineState),
      s.iteration_count ≤ (step f s).iteration_count) ∧
    (∀ (q : ℚ) (i : ℕ),
      (route_from_validator q i).1 = .replan ∨
        (route_from_validator q i).1 = .refine →
      (route_from_validator q i).2 = i + 1) ∧
    (∀ (f : ℕ → ℚ) (s : MachineState), s.phase = .refiner →
      (step f s).iteration_count = s.iteration_count + 1) ∧
    (∀ (f : ℕ → ℚ) (n : ℕ),
      ((step f)^[n] initState).iteration_count ≤
        ((step f)^[n + 1] initState).iteration_count) := by
  have hmono : ∀ (f : ℕ → ℚ) (s : MachineState),
      s.iteration_count ≤ (step f s).iteration_count := by
    intro f s
    cases hp : s.phase
    · rw [step_analyzer f s hp]
    · rw [step_principles f s hp]
    · rw [step_planner f s hp]
    · rw [step_generator f s hp]
    · rcases le_or_lt 8 (f s.validations) with h8 | h8
      · rw [step_validator_finished f s hp (route_finished_of_ge8 _ _ h8)]
      · rcases le_or_lt 6 (f s.validations) with h6 | h6
        · rcases le_or_lt 3 s.iteration_count with hi3 | hi3
          · rw [step_validator_finished f s hp (route_finished_mid _ _ h8 h6 hi3)]
          · rw [step_validator_refine f s hp (route_refine _ _ h8 h6 hi3)]
            simp
        · rcases le_or_lt 2 s.iteration_count with hi2 | hi2
          · rw [step_validator_finished f s hp (route_finished_low _ _ h6 hi2)]
          · rw [step_validator_replan f s hp (route_replan _ _ h8 h6 hi2)]
            simp
    · rw [step_refiner f s hp]
      simp
    · rw [step_done_eq f s hp]
  refine ⟨rfl, hmono, ?_, ?_, ?_⟩
  · intro q i hr
    rcases le_or_lt 8 q with h8 | h8
    · rw [route_finished_of_ge8 q i h8] at hr ⊢
      rcases hr with hr | hr <;> exact absurd hr (by simp)
    · rcases le_or_lt 6 q with h6 | h6
      · rcases le_or_lt 3 i with hi3 | hi3
        · rw [route_finished_mid q i h8 h6 hi3] at hr ⊢
          rcases hr with hr | hr <;> exact absurd hr (by simp)
        · rw [route_refine q i h8 h6 hi3]
      · rcases le_or_lt 2 i with hi2 | hi2
        · rw [route_finished_low q i h6 hi2] at hr ⊢
          rcases hr with hr | hr <;> exact absurd hr (by simp)
        · rw [route_replan q i h8 h6 hi2]
  · intro f s hp
    rw [step_refiner f s hp]
  · intro f n
    rw [Function.iterate_succ_apply']
    exact hmono f _

/-- Witness for C10: the replan route at score 5.0 and iteration 0
increments the count to 1, and one refiner transition increments the
count of a concrete state from 1 to 2. -/
theorem iteration_count_monotone_witness :
    (route_from_validator 5 0).2 = 0 + 1 ∧
    (step (fun _ => 5) ⟨.refiner, 1, 1, 1⟩).iteration_count = 1 + 1 :=
  ⟨iteration_count_monotone.2.2.1 5 0
    (Or.inl (by rw [route_replan 5 0 (by norm_num) (by norm_num) (by norm_num)])),
   iteration_count_monotone.2.2.2.1 (fun _ => 5) ⟨.refiner, 1, 1, 1⟩ rfl⟩

/-- C8: when the Validator collaborator fails (modelled as a `none`
result), the substituted neutral report has `overall_score = 8.0`,
that score routes every validation straight to Done without touching
the iteration count, and the whole run with a failing validator
reaches the terminal Done state (it is in END five transitions after
entry). -/
theorem validator_failure_still_terminates :
    (validator_with_fallback Option.none).overall_quality_score = 8 ∧
    (∀ i : ℕ,
      route_from_validator
        (validator_with_fallback Option.none).overall_quality_score i =
        (.finished, i)) ∧
    ((step (fun _ =>
        (validator_with_fallback Option.none).overall_quality_score))^[5]
      initState).phase = .done := by
  refine ⟨rfl, fun i => route_finished_of_ge8 _ i (by norm_num [validator_with_fallback, neutral_report]), ?_⟩
  rw [show (5 : ℕ) = 1 + 4 from rfl, Function.iterate_add_apply, iterate_four_init,
    Function.iterate_one,
    step_validator_finished _ _ rfl
      (route_finished_of_ge8 _ _ (by norm_num [validator_with_fallback, neutral_report]))]

/-- C4: for every progress value `t`, the easing curves compute
linear → t, ease-in → t², ease-out → 1-(1-t)², and ease-in-out → 2t²
when t < 0.5 and 1-2(1-t)² otherwise. -/
theorem easing_formulas (t : ℚ) :
    apply_easing_curve t .linear = t ∧
    apply_easing_curve t .easeIn = t ^ 2 ∧
    apply_easing_curve t .easeOut = 1 - (1 - t) ^ 2 ∧
    (t < 1/2 → apply_easing_curve t .easeInOut = 2 * t ^ 2) ∧
    (1/2 ≤ t → apply_easing_curve t .easeInOut = 1 - 2 * (1 - t) ^ 2) := by
  refine ⟨rfl, rfl, rfl, ?_, ?_⟩
  · intro h
    unfold apply_easing_curve
    rw [if_pos h]
  · intro h
    unfold apply_easing_curve
    rw [if_neg (not_lt.mpr h)]

/-- Witness for C4: ease-in-out evaluated on both sides of one half,
at t = 1/4 (giving 1/8) and t = 3/4 (giving 7/8). -/
theorem easing_formulas_witness :
    apply_easing_curve (1/4) .easeInOut = 1/8 ∧
    apply_easing_curve (3/4) .easeInOut = 7/8 := by
  constructor
  · rw [(easing_formulas (1/4)).2.2.2.1 (by norm_num)]
    norm_num
  · rw [(easing_formulas (3/4)).2.2.2.2 (by norm_num)]
    norm_num

/-- C5: every easing curve is endpoint-exact — `ease(0, curve) = 0`
and `ease(1, curve) = 1` hold exactly (floats are modelled by exact
rationals, so there is no drift at all). -/
theorem easing_endpoint_exact (curve : EasingCurve) :
    apply_easing_curve 0 curve = 0 ∧ apply_easing_curve 1 curve = 1 :=
  ⟨apply_easing_curve_zero curve, apply_easing_curve_one curve⟩

/-- C6: for `frame_count = n ≥ 2` the planner's schedule has exactly
`n` entries; entry `i` carries `t_linear = i/(n-1)` (and its eased
value); `t_linear` strictly increases, starting at exactly 0.0 and
ending at exactly 1.0; and the first entry's `t_eased` is exactly 0.0
and the last entry's exactly 1.0. -/
theorem frame_schedule_spec (n : ℕ) (curve : EasingCurve) (hn : 2 ≤ n) :
    (frame_schedule n curve).length = n ∧
    (∀ i, i < n →
      (frame_schedule n curve).getD i (0, 0, 0) =
        (i, (i : ℚ) / ((n : ℚ) - 1),
         apply_easing_curve ((i : ℚ) / ((n : ℚ) - 1)) curve)) ∧
    (∀ i j, i < j → j < n →
      ((frame_schedule n curve).getD i (0, 0, 0)).2.1 <
        ((frame_schedule n curve).getD j (0, 0, 0)).2.1) ∧
    ((frame_schedule n curve).getD 0 (0, 0, 0)).2.1 = 0 ∧
    ((frame_schedule n curve).getD (n - 1) (0, 0, 0)).2.1 = 1 ∧
    ((frame_schedule n curve).getD 0 (0, 0, 0)).2.2 = 0 ∧
    ((frame_schedule n curve).getD (n - 1) (0, 0, 0)).2.2 = 1 := by
  have hpos : (0 : ℚ) < (n : ℚ) - 1 := by
    have : (2 : ℚ) ≤ (n : ℚ) := by exact_mod_cast hn
    linarith
  have hlast : ((n - 1 : ℕ) : ℚ) / ((n : ℚ) - 1) = 1 := by
    rw [Nat.cast_sub (by omega)]
    exact div_self (ne_of_gt hpos)
  refine ⟨by unfold frame_schedule; simp, frame_schedule_getD n curve, ?_, ?_, ?_, ?_, ?_⟩
  · intro i j hij hj
    rw [frame_schedule_getD n curve i (by omega), frame_schedule_getD n curve j hj]
    have : (i : ℚ) < (j : ℚ) := by exact_mod_cast hij
    exact (div_lt_div_iff_of_pos_right hpos).mpr this
  · rw [frame_schedule_getD n curve 0 (by omega)]
    simp
  · rw [frame_schedule_getD n curve (n - 1) (by omega)]
    simpa using hlast
  · rw [frame_schedule_getD n curve 0 (by omega)]
    simpa using apply_easing_curve_zero curve
  · rw [frame_schedule_getD n curve (n - 1) (by omega)]
    show apply_easing_curve _ curve = 1
    rw [hlast]
    exact apply_easing_curve_one curve

/-- Witness for C6 at `n = 5`, curve ease-in-out: 5 entries, the
middle entry has `t_linear = 1/2`, and the final eased value is
exactly 1. -/
theorem frame_schedule_spec_witness :
    (frame_schedule 5 .easeInOut).length = 5 ∧
    (frame_schedule 5 .easeInOut).getD 2 (0, 0, 0) = (2, 1/2, 1/2) ∧
    ((frame_schedule 5 .easeInOut).getD 4 (0, 0, 0)).2.2 = 1 := by
  refine ⟨(frame_schedule_spec 5 .easeInOut (by norm_num)).1, ?_, ?_⟩
  · rw [(frame_schedule_spec 5 .easeInOut (by norm_num)).2.1 2 (by norm_num)]
    norm_num [apply_easing_curve]
  · exact (frame_schedule_spec 5 .easeInOut (by norm_num)).2.2.2.2.2.2

/-- C7: an explicitly requested frame count is honored clamped to
[2, 32] — in particular it is returned unchanged whenever it already
lies in that range, and the result always lies in [2, 32] — and
without an explicit request the count comes from the motion energy by
the fixed lookup very-slow→16, slow→12, medium→8, fast→6,
very-fast/explosive→4. -/
theorem determine_frame_count_spec :
    (∀ (k : ℕ) (e : MotionEnergy),
      _determine_frame_count (some k) e = max 2 (min 32 k)) ∧
    (∀ (k : ℕ) (e : MotionEnergy), 2 ≤ k → k ≤ 32 →
      _determine_frame_count (some k) e = k) ∧
    (∀ (k : ℕ) (e : MotionEnergy),
      2 ≤ _determine_frame_count (some k) e ∧
        _determine_frame_count (some k) e ≤ 32) ∧
    _determine_frame_count none .verySlow = 16 ∧
    _determine_frame_count none .slow = 12 ∧
    _determine_frame_count none .medium = 8 ∧
    _determine_frame_count none .fast = 6 ∧
    _determine_frame_count none .veryFast = 4 ∧
    _determine_frame_count none .explosive = 4 := by
  refine ⟨fun k e => rfl, ?_, ?_, rfl, rfl, rfl, rfl, rfl, rfl⟩
  · intro k e h2 h32
    show max 2 (min 32 k) = k
    omega
  · intro k e
    constructor
    · show 2 ≤ max 2 (min 32 k)
      omega
    · show max 2 (min 32 k) ≤ 32
      omega

/-- Witness for C7: a requested count of 8 is honored as is, and a
requested count of 50 is clamped to the top of the range. -/
theorem determine_frame_count_spec_witness :
    _determine_frame_count (some 8) .fast = 8 ∧
    _determine_frame_count (some 50) .medium = 32 :=
  ⟨determine_frame_count_spec.2.1 8 .fast (by norm_num) (by norm_num),
   (determine_frame_count_spec.1 50 .medium).trans (by norm_num)⟩

/-- C9: every refinement pass leaves the schedule's geometric contract
intact — the refined sequence has exactly as many frames as the input
sequence, the planner's schedule (frame indices, progress values,
positions) is untouched, and the original frames are retained
unmodified; only the pixel content of the refined copies differs. -/
theorem refiner_preserves_geometry (cleanup_alpha_edges : Frame → Frame)
    (nudge : ℕ → Frame → Frame) (s : RefinerState) :
    ((refiner_agent cleanup_alpha_edges nudge s).refined_frames).length =
      s.frames.length ∧
    (refiner_agent cleanup_alpha_edges nudge s).plan_schedule = s.plan_schedule ∧
    (refiner_agent cleanup_alpha_edges nudge s).frames = s.frames := by
  refine ⟨?_, rfl, rfl⟩
  show (let fa := s.frames
        let fa := if s.motion_smoothness < 7 then temporal_smooth fa 3 else fa
        let fa := if s.artifact_score < 7 then fa.map cleanup_alpha_edges else fa
        let fa := if s.style_consistency < 7 then normalize_colors nudge fa else fa
        fa).length = s.frames.length
  simp only []
  split_ifs <;>
    simp [normalize_colors_length, temporal_smooth_length, List.length_map]

/-- C1: the arc position for type `none` is the componentwise linear
interpolation of start and end; for type `parabolic` the x coordinate
is linearly interpolated and the y coordinate is linearly interpolated
then offset by `-4·H·t·(1-t)` with `H = distance(start, end) ·
intensity · 0.3`, where `distance` is the Euclidean distance in the
normalized coordinate space; in particular at start (0.2, 0.5), end
(0.8, 0.5), intensity 0.5 and t = 0.5 the position is (0.5, 0.41). -/
theorem arc_position_spec :
    (∀ (p q : ℝ × ℝ) (t intensity : ℝ),
      _calculate_arc_path p q t intensity .none =
        ((1 - t) * p.1 + t * q.1, (1 - t) * p.2 + t * q.2)) ∧
    (∀ (p q : ℝ × ℝ) (t intensity : ℝ),
      _calculate_arc_path p q t intensity .parabolic =
        ((1 - t) * p.1 + t * q.1,
         ((1 - t) * p.2 + t * q.2) +
           -(4 * (Real.sqrt ((q.1 - p.1) ^ 2 + (q.2 - p.2) ^ 2) * intensity * 0.3)
             * t * (1 - t)))) ∧
    _calculate_arc_path (0.2, 0.5) (0.8, 0.5) 0.5 0.5 .parabolic = (0.5, 0.41) := by
  have hpar : ∀ (p q : ℝ × ℝ) (t intensity : ℝ),
      _calculate_arc_path p q t intensity .parabolic =
        ((1 - t) * p.1 + t * q.1,
         ((1 - t) * p.2 + t * q.2) +
           -(4 * (Real.sqrt ((q.1 - p.1) ^ 2 + (q.2 - p.2) ^ 2) * intensity * 0.3)
             * t * (1 - t))) := by
    intro p q t intensity
    unfold _calculate_arc_path _calculate_parabolic_arc
    refine Prod.ext rfl ?_
    show (1 - t) * p.2 + t * q.2 +
        -(Real.sqrt ((q.1 - p.1) ^ 2 + (q.2 - p.2) ^ 2) * intensity * 0.3)
          * 4 * t * (1 - t) = _
    ring
  refine ⟨fun p q t intensity => rfl, hpar, ?_⟩
  rw [hpar]
  have hsqrt : Real.sqrt (((0.8 : ℝ) - 0.2) ^ 2 + ((0.5 : ℝ) - 0.5) ^ 2) = 0.6 := by
    rw [show ((0.8 : ℝ) - 0.2) ^ 2 + ((0.5 : ℝ) - 0.5) ^ 2 = (0.6 : ℝ) ^ 2 by norm_num]
    exact Real.sqrt_sq (by norm_num)
  refine Prod.ext (by norm_num) ?_
  show (1 - 0.5) * (0.5 : ℝ) + 0.5 * 0.5 +
      -(4 * (Real.sqrt (((0.8 : ℝ) - 0.2) ^ 2 + ((0.5 : ℝ) - 0.5) ^ 2) * 0.5 * 0.3)
        * 0.5 * (1 - 0.5)) = 0.41
  rw [hsqrt]
  norm_num

end Vizier
